/-
Verification of the inventory & tiered-portion pricing engine of the
blank-canvas-app repository (a restaurant POS application).

The engine is shallowly embedded:
 * Pure price derivation is translated from `getPortionPrice` in
   src/src/components/PortionSelector.tsx (lines 21-28).
 * The default portion templates are translated from `DEFAULT_PORTIONS`
   (PortionSelector.tsx lines 96-110).
 * The UI handlers `handleAddInventoryCategory`, `handleAddStock` and
   `handleRemoveCategory` (PortionSelector.tsx lines 152-261) are translated
   statement by statement as functions on an explicit store state.
 * The zustand store itself (store/useStore) is not part of the available
   sources; its operations (`addInventoryCategory`, `addPortionOption`,
   `addInventoryItem`, `deletePortionOption`, `deleteInventoryItem`,
   `deleteInventoryCategory`, `addStock`, `setItemPortionPrice`,
   `getItemPortionPrice`, `getPortionsByCategory`, `getPortionPrice`,
   `listLowStockItems`) are modelled from the specification; each such
   definition carries a doc comment starting with "Modelled from the spec:".

Modelling conventions:
 * JavaScript numbers are modelled by ℚ; `Math.round` by `jsRound`
   (floor of x + 1/2, which agrees with Math.round on all finite inputs).
 * Results of `parseFloat` on form fields are modelled by `JsNum`
   (either NaN or a rational); an empty text field is `Option.none`,
   a non-empty field is `some` of its parsed value (`parseFloat('') = NaN`).
 * Entity ids are modelled as naturals drawn from a per-store counter;
   the source uses generated unique id strings.
-/
import Mathlib

set_option maxRecDepth 4000
set_option maxHeartbeats 1000000

/-- Rounding to the nearest integer as JavaScript's Math.round does it:
halves round up (towards +infinity). -/
def jsRound (q : ℚ) : ℤ := ⌊q + 1/2⌋

/-- A JavaScript number obtained from `parseFloat`: either NaN or a finite
value (modelled as a rational). -/
inductive JsNum where
  | nan : JsNum
  | num : ℚ → JsNum
deriving DecidableEq, Repr

/-- NaN is absorbing for multiplication, as in JavaScript. -/
def JsNum.mul : JsNum → JsNum → JsNum
  | .num a, .num b => .num (a * b)
  | _, _ => .nan

/-- The JavaScript comparison `x <= 0`: false whenever `x` is NaN. -/
def JsNum.leZero : JsNum → Bool
  | .nan => false
  | .num q => decide (q ≤ 0)

/-- A strictly positive finite number (the quantities the spec considers
valid for a user-initiated stock add). -/
def JsNum.isPosFinite : JsNum → Bool
  | .nan => false
  | .num q => decide (0 < q)

/-- Display form of a parsed number, used when the handler builds the
auto-generated notes text. -/
def JsNum.text : JsNum → String
  | .nan => "NaN"
  | .num q => toString q

/-- The unit types offered by UNIT_OPTIONS in PortionSelector.tsx. -/
inductive InventoryUnitType where
  | ml : InventoryUnitType
  | pcs : InventoryUnitType
  | grams : InventoryUnitType
  | bottle : InventoryUnitType
  | pack : InventoryUnitType
deriving DecidableEq, Repr

structure Category where
  id : Nat
  name : String
deriving DecidableEq, Repr

structure MenuItem where
  id : Nat
  name : String
  category : String
  price : ℚ
deriving DecidableEq, Repr

structure InventoryCategory where
  id : Nat
  categoryId : Nat
  unitType : InventoryUnitType
  lowStockThreshold : ℚ
deriving DecidableEq, Repr

structure PortionOption where
  id : Nat
  inventoryCategoryId : Nat
  name : String
  size : ℚ
  priceMultiplier : ℚ
  sortOrder : Nat
  fixedPrice : Option ℚ
deriving DecidableEq, Repr

structure InventoryItem where
  id : Nat
  menuItemId : Nat
  currentStock : ℚ
  defaultBottleSize : Option ℚ
  unit : InventoryUnitType
  lowStockThreshold : Option ℚ
deriving DecidableEq, Repr

structure ItemPortionPrice where
  menuItemId : Nat
  portionOptionId : Nat
  price : ℚ
deriving DecidableEq, Repr

/-- A stock ledger entry (StockMutationEvent of the spec's data model). -/
structure StockMutation where
  menuItemId : Nat
  delta : ℚ
  unit : InventoryUnitType
  notes : String
deriving DecidableEq, Repr

/-- One entry of a default portion template: name, size and price
multiplier, as in DEFAULT_PORTIONS. -/
structure PortionTemplate where
  name : String
  size : ℚ
  multiplier : ℚ
deriving DecidableEq, Repr

/-- The `ml` ladder of DEFAULT_PORTIONS (PortionSelector.tsx lines 97-105). -/
def mlPortionTemplate : List PortionTemplate :=
  [ { name := "30ml (Peg)", size := 30, multiplier := 0.5 },
    { name := "60ml (Large)", size := 60, multiplier := 1 },
    { name := "90ml", size := 90, multiplier := 1.5 },
    { name := "180ml (QTR)", size := 180, multiplier := 2.8 },
    { name := "375ml (Half)", size := 375, multiplier := 5.5 },
    { name := "750ml (Full)", size := 750, multiplier := 10 },
    { name := "1000ml", size := 1000, multiplier := 13.3 } ]

/-- The `pcs` ladder of DEFAULT_PORTIONS (PortionSelector.tsx lines 106-109). -/
def pcsPortionTemplate : List PortionTemplate :=
  [ { name := "1 Piece", size := 1, multiplier := 1 },
    { name := "Pack (20)", size := 20, multiplier := 18 } ]

/-- DEFAULT_PORTIONS as a keyed lookup: only `ml` and `pcs` have entries. -/
def DEFAULT_PORTIONS : InventoryUnitType → Option (List PortionTemplate)
  | .ml => some mlPortionTemplate
  | .pcs => some pcsPortionTemplate
  | _ => none

/-- The template actually used when seeding a unit type:
`DEFAULT_PORTIONS[selectedUnit] || DEFAULT_PORTIONS.pcs`
(PortionSelector.tsx line 170). -/
def defaultPortionsFor (u : InventoryUnitType) : List PortionTemplate :=
  (DEFAULT_PORTIONS u).getD pcsPortionTemplate

/-- `Math.min(...portions.map(p => p.priceMultiplier))` from getPortionPrice
(PortionSelector.tsx line 23).  The empty case is unreachable in the
component (it returns null when `portions.length === 0`, line 30); it is
modelled as 0. -/
def minMultiplier : List PortionOption → ℚ
  | [] => 0
  | p :: ps => ps.foldl (fun acc q => min acc q.priceMultiplier) p.priceMultiplier

/-- The multiplier-derived price of getPortionPrice in PortionSelector.tsx
(lines 21-28): base unit price is `item.price / baseMultiplier` where
`baseMultiplier` is the minimum multiplier of the category's portions, and
the portion's price is `Math.round(baseUnitPrice * portion.priceMultiplier)`. -/
def computedPortionPrice (basePrice : ℚ) (portions : List PortionOption)
    (p : PortionOption) : ℤ :=
  jsRound (basePrice / minMultiplier portions * p.priceMultiplier)

/-- The in-memory store state shared by the components. -/
structure StoreState where
  categories : List Category
  menuItems : List MenuItem
  inventoryCategories : List InventoryCategory
  inventoryItems : List InventoryItem
  portionOptions : List PortionOption
  itemPortionPrices : List ItemPortionPrice
  stockMutations : List StockMutation
  nextId : Nat
deriving DecidableEq, Repr

/-- Modelled from the spec: store operation creating an InventoryCategory
for a category opting into tracking (§3, §4.5).  A fresh id is drawn from
the counter. -/
def addInventoryCategory (s : StoreState) (categoryId : Nat)
    (unitType : InventoryUnitType) (threshold : ℚ) : StoreState :=
  { s with
    inventoryCategories := s.inventoryCategories ++
      [{ id := s.nextId, categoryId := categoryId, unitType := unitType,
         lowStockThreshold := threshold }],
    nextId := s.nextId + 1 }

/-- Modelled from the spec: store operation adding one PortionOption to an
InventoryCategory (§3, §4.1). -/
def addPortionOption (s : StoreState) (inventoryCategoryId : Nat)
    (name : String) (size priceMultiplier : ℚ) (sortOrder : Nat) : StoreState :=
  { s with
    portionOptions := s.portionOptions ++
      [{ id := s.nextId, inventoryCategoryId := inventoryCategoryId,
         name := name, size := size, priceMultiplier := priceMultiplier,
         sortOrder := sortOrder, fixedPrice := none }],
    nextId := s.nextId + 1 }

/-- Modelled from the spec: store operation creating an InventoryItem for a
menu item (§3). -/
def addInventoryItem (s : StoreState) (menuItemId : Nat) (currentStock : ℚ)
    (defaultBottleSize : Option ℚ) (unit : InventoryUnitType)
    (lowStockThreshold : Option ℚ) : StoreState :=
  { s with
    inventoryItems := s.inventoryItems ++
      [{ id := s.nextId, menuItemId := menuItemId, currentStock := currentStock,
         defaultBottleSize := defaultBottleSize, unit := unit,
         lowStockThreshold := lowStockThreshold }],
    nextId := s.nextId + 1 }

/-- Modelled from the spec: store operation deleting one PortionOption by id
(referential cleanup of §4.3). -/
def deletePortionOption (s : StoreState) (pid : Nat) : StoreState :=
  { s with portionOptions := s.portionOptions.filter (fun p => p.id != pid) }

/-- Modelled from the spec: store operation deleting one InventoryItem by id. -/
def deleteInventoryItem (s : StoreState) (iid : Nat) : StoreState :=
  { s with inventoryItems := s.inventoryItems.filter (fun it => it.id != iid) }

/-- Modelled from the spec: store operation deleting one InventoryCategory
by id. -/
def deleteInventoryCategory (s : StoreState) (icid : Nat) : StoreState :=
  { s with
    inventoryCategories := s.inventoryCategories.filter (fun ic => ic.id != icid) }

/-- Modelled from the spec: the store lookup `getInventoryByMenuItemId` used
by handleAddStock — the InventoryItem of a menu item, if tracked. -/
def getInventoryByMenuItemId (s : StoreState) (menuItemId : Nat) :
    Option InventoryItem :=
  s.inventoryItems.find? (fun it => it.menuItemId == menuItemId)

/-- Errors of the stock ledger operation (§7 taxonomy). -/
inductive StockError where
  | notTracked : StockError
  | invalidQuantity : StockError
deriving DecidableEq, Repr

/-- Modelled from the spec: `addStock(menuItemId, quantity, unit, notes)`
(§4.3, §6): requires an existing InventoryItem (NotTracked error
otherwise); requires the quantity to be a finite number (no sign
constraint: negative deltas subtract); appends the mutation event and adds
the signed delta to `currentStock`. -/
def addStock (s : StoreState) (menuItemId : Nat) (quantity : JsNum)
    (unit : InventoryUnitType) (notes : String) : Except StockError StoreState :=
  match getInventoryByMenuItemId s menuItemId with
  | none => .error .notTracked
  | some _ =>
    match quantity with
    | .nan => .error .invalidQuantity
    | .num d =>
      .ok { s with
        stockMutations := s.stockMutations ++
          [{ menuItemId := menuItemId, delta := d, unit := unit, notes := notes }],
        inventoryItems := s.inventoryItems.map (fun it =>
          if it.menuItemId == menuItemId
          then { it with currentStock := it.currentStock + d }
          else it) }

/-- Key match for the (menuItemId, portionOptionId) map of overrides. -/
def overrideKey (menuItemId portionOptionId : Nat) (e : ItemPortionPrice) : Bool :=
  e.menuItemId == menuItemId && e.portionOptionId == portionOptionId

/-- Modelled from the spec: `getItemPortionPrice` — the stored override for
(menu item, portion), absent meaning "use computed price" (§3). -/
def getItemPortionPrice (s : StoreState) (menuItemId portionOptionId : Nat) :
    Option ℚ :=
  (s.itemPortionPrices.find? (overrideKey menuItemId portionOptionId)).map
    (fun e => e.price)

/-- Upsert into the override list, keyed by (menuItemId, portionOptionId). -/
def upsertOverride : List ItemPortionPrice → Nat → Nat → ℚ → List ItemPortionPrice
  | [], menuItemId, portionOptionId, price =>
    [{ menuItemId := menuItemId, portionOptionId := portionOptionId, price := price }]
  | e :: rest, menuItemId, portionOptionId, price =>
    if overrideKey menuItemId portionOptionId e
    then { menuItemId := menuItemId, portionOptionId := portionOptionId,
           price := price } :: rest
    else e :: upsertOverride rest menuItemId portionOptionId price

/-- Modelled from the spec: `setItemPortionPrice(menuItemId, portionOptionId,
price)` — creates or updates the override for that pair (§3, §6). -/
def setItemPortionPrice (s : StoreState) (menuItemId portionOptionId : Nat)
    (price : ℚ) : StoreState :=
  { s with
    itemPortionPrices :=
      upsertOverride s.itemPortionPrices menuItemId portionOptionId price }

/-- Modelled from the spec: the store lookup `getPortionsByCategory` used by
PortionSelector — resolves the category by display name, then its
InventoryCategory, then that category's PortionOptions (§3). -/
def getPortionsByCategory (s : StoreState) (categoryName : String) :
    List PortionOption :=
  match s.categories.find? (fun c => c.name == categoryName) with
  | none => []
  | some c =>
    match s.inventoryCategories.find? (fun ic => ic.categoryId == c.id) with
    | none => []
    | some ic => s.portionOptions.filter (fun p => p.inventoryCategoryId == ic.id)

/-- Modelled from the spec: the engine operation `getPortionPrice(menuItemId,
portionOptionId)` of §6, applying the override precedence of §4.2: if an
ItemPortionPrice exists for the pair it is returned unchanged, otherwise
the multiplier-computed price (the computed branch is the translation of
getPortionPrice in PortionSelector.tsx, `computedPortionPrice`). -/
def getPortionPrice (s : StoreState) (menuItemId portionOptionId : Nat) :
    Option ℚ :=
  match getItemPortionPrice s menuItemId portionOptionId with
  | some p => some p
  | none =>
    match s.menuItems.find? (fun m => m.id == menuItemId) with
    | none => none
    | some m =>
      let portions := getPortionsByCategory s m.category
      match portions.find? (fun p => p.id == portionOptionId) with
      | none => none
      | some p => some ((computedPortionPrice m.price portions p : ℤ) : ℚ)

/-- The low-stock display record of `listLowStockItems` (§6). -/
structure LowStockEntry where
  inventoryItemId : Nat
  menuItemName : String
  currentStock : ℚ
  unit : InventoryUnitType
deriving DecidableEq, Repr

/-- Modelled from the spec: the category default threshold of an inventory
item, resolved through its menu item's category (§4.4). -/
def categoryDefaultThreshold (s : StoreState) (it : InventoryItem) : Option ℚ :=
  match s.menuItems.find? (fun m => m.id == it.menuItemId) with
  | none => none
  | some m =>
    match s.categories.find? (fun c => c.name == m.category) with
    | none => none
    | some c =>
      (s.inventoryCategories.find? (fun ic => ic.categoryId == c.id)).map
        (fun ic => ic.lowStockThreshold)

/-- Modelled from the spec: the threshold resolution
`item.lowStockThreshold ?? categoryDefaultThreshold ?? 5` (§4.4). -/
def resolvedThreshold (s : StoreState) (it : InventoryItem) : ℚ :=
  it.lowStockThreshold.getD ((categoryDefaultThreshold s it).getD 5)

/-- The low-stock membership test of one inventory item. -/
def isLowStock (s : StoreState) (it : InventoryItem) : Bool :=
  decide (it.currentStock ≤ resolvedThreshold s it)

/-- Modelled from the spec: `listLowStockItems()` (§4.4, §6) — scan all
InventoryItems, keep those at or below their resolved threshold, and
collect name, current stock and unit for display. -/
def listLowStockItems (s : StoreState) : List LowStockEntry :=
  (s.inventoryItems.filter (fun it => isLowStock s it)).map (fun it =>
    { inventoryItemId := it.id,
      menuItemName :=
        match s.menuItems.find? (fun m => m.id == it.menuItemId) with
        | some m => m.name
        | none => "",
      currentStock := it.currentStock,
      unit := it.unit })

/-- The add-category form state of InventoryManager: `selectedCategory`
(empty select modelled as none), `selectedUnit`, and the parsed value of
the `lowStockThreshold` text input. -/
structure RegisterForm where
  selectedCategory : Option Nat
  selectedUnit : InventoryUnitType
  lowStockThreshold : ℚ
deriving DecidableEq, Repr

/-- Translation of `handleAddInventoryCategory` (PortionSelector.tsx lines
152-197): guard on a selected category, create the InventoryCategory, look
it up again by categoryId, seed the default portions with `sortOrder`
equal to the template position, then create a zero-stock InventoryItem for
every menu item of the category, with `defaultBottleSize` 750 exactly for
`ml` and the registration threshold as item threshold.  `none` models the
early returns (error toast / missing category). -/
def handleAddInventoryCategory (s : StoreState) (f : RegisterForm) :
    Option StoreState :=
  match f.selectedCategory with
  | none => none
  | some cid =>
    match s.categories.find? (fun c => c.id == cid) with
    | none => none
    | some cat =>
      let s1 := addInventoryCategory s cid f.selectedUnit f.lowStockThreshold
      let s2 :=
        match s1.inventoryCategories.find? (fun ic => ic.categoryId == cid) with
        | some newInvCat =>
          ((defaultPortionsFor f.selectedUnit).enum).foldl
            (fun st pi =>
              addPortionOption st newInvCat.id pi.2.name pi.2.size
                pi.2.multiplier pi.1) s1
        | none => s1
      let itemsInCategory := s.menuItems.filter (fun m => m.category == cat.name)
      some (itemsInCategory.foldl
        (fun st item =>
          addInventoryItem st item.id 0
            (if f.selectedUnit = InventoryUnitType.ml then some 750 else none)
            f.selectedUnit (some f.lowStockThreshold)) s2)

/-- The bottle-size select of the add-stock dialog: one of the preset sizes
(as the parsed value of its value string) or the custom choice.  The
select always carries a value (default '750'), so it is never empty. -/
inductive BottleSizeSel where
  | preset : ℚ → BottleSizeSel
  | custom : BottleSizeSel
deriving DecidableEq, Repr

/-- The add-stock form state of InventoryManager.  Text fields are `none`
when empty (falsy in the source) and `some` of their parsed value
otherwise; a non-numeric non-empty text parses to NaN. -/
structure AddStockForm where
  stockMenuItemId : Option Nat
  stockQuantity : Option JsNum
  bottleCount : Option JsNum
  bottleSize : BottleSizeSel
  customBottleSize : Option JsNum
  stockNotes : Option String
deriving DecidableEq, Repr

/-- `parseFloat` of a text field: the empty string parses to NaN. -/
def parseField : Option JsNum → JsNum
  | none => .nan
  | some v => v

/-- The effective bottle size: `bottleSize === 'custom' ?
parseFloat(customBottleSize) : parseFloat(bottleSize)`
(PortionSelector.tsx line 214). -/
def effectiveBottleSize (f : AddStockForm) : JsNum :=
  match f.bottleSize with
  | .custom => parseField f.customBottleSize
  | .preset q => .num q

/-- The `totalQuantity` computation of handleAddStock (PortionSelector.tsx
lines 211-218): the bottle-derived quantity when a bottle count is present
(the size select is always non-empty), else the direct quantity, else 0. -/
def resolvedQuantity (f : AddStockForm) : JsNum :=
  if f.bottleCount.isSome then
    (parseField f.bottleCount).mul (effectiveBottleSize f)
  else if f.stockQuantity.isSome then
    parseField f.stockQuantity
  else
    .num 0

/-- The notes text of handleAddStock (PortionSelector.tsx line 225): the
bottle breakdown with any user notes appended, or the plain user notes. -/
def stockEntryNotes (f : AddStockForm) : String :=
  match f.bottleCount with
  | some c =>
    c.text ++ " bottles × " ++
      (match f.bottleSize with
       | .custom => (parseField f.customBottleSize).text
       | .preset q => (JsNum.num q).text) ++ "ml" ++
      (match f.stockNotes with
       | some n => " - " ++ n
       | none => "")
  | none =>
    match f.stockNotes with
    | some n => n
    | none => ""

/-- Outcome of one submission of the add-stock dialog. -/
inductive AddStockOutcome where
  | selectError : AddStockOutcome
  | notTrackedError : AddStockOutcome
  | invalidQuantityError : AddStockOutcome
  | storeRejected : StockError → AddStockOutcome
  | added : JsNum → String → AddStockOutcome
deriving DecidableEq, Repr

/-- Whether the submission reached a successful `addStock` call. -/
def AddStockOutcome.isAdded : AddStockOutcome → Bool
  | .added _ _ => true
  | _ => false

/-- Translation of `handleAddStock` (PortionSelector.tsx lines 199-236):
guard on a selected item and at least one quantity field, guard on the
item being tracked, resolve the quantity with bottle-entry priority,
reject a non-positive total, then call the store's addStock. -/
def handleAddStock (s : StoreState) (f : AddStockForm) :
    AddStockOutcome × StoreState :=
  if f.stockMenuItemId.isNone || (f.stockQuantity.isNone && f.bottleCount.isNone)
  then (.selectError, s)
  else
    let mid := f.stockMenuItemId.getD 0
    match getInventoryByMenuItemId s mid with
    | none => (.notTrackedError, s)
    | some invItem =>
      let totalQuantity := resolvedQuantity f
      if totalQuantity.leZero then (.invalidQuantityError, s)
      else
        let notes := stockEntryNotes f
        match addStock s mid totalQuantity invItem.unit notes with
        | .ok s2 => (.added totalQuantity notes, s2)
        | .error e => (.storeRejected e, s)

/-- One iteration of the item-deletion loop of handleRemoveCategory
(PortionSelector.tsx lines 252-255): find the menu item's InventoryItem in
the render snapshot `snapshot` and, if present, delete it by id. -/
def removeItemStep (snapshot : List InventoryItem) (st : StoreState)
    (item : MenuItem) : StoreState :=
  match snapshot.find? (fun ii => ii.menuItemId == item.id) with
  | some invItem => deleteInventoryItem st invItem.id
  | none => st

/-- Whether an inventory item survives the whole item-deletion loop run on
the snapshot `snapshot` for the menu items `ms`: its id must differ from
the id found for every processed menu item. -/
def removeItemKeep (snapshot : List InventoryItem) (ms : List MenuItem)
    (it : InventoryItem) : Bool :=
  ms.all (fun m =>
    match snapshot.find? (fun ii => ii.menuItemId == m.id) with
    | some d => it.id != d.id
    | none => true)

/-- Translation of `handleRemoveCategory` (PortionSelector.tsx lines
238-261): after the confirmation gate, find the InventoryCategory, delete
its PortionOptions, delete the InventoryItem of each menu item of the
category, then delete the InventoryCategory.  All lookups read the render
snapshot `s`, as in the source, while the deletions thread the state. -/
def handleRemoveCategory (s : StoreState) (catId : Nat) (confirmed : Bool) :
    StoreState :=
  if !confirmed then s
  else
    match s.inventoryCategories.find? (fun ic => ic.categoryId == catId) with
    | none => s
    | some invCat =>
      let s1 := (s.portionOptions.filter
          (fun p => p.inventoryCategoryId == invCat.id)).foldl
        (fun st p => deletePortionOption st p.id) s
      let s2 :=
        match s.categories.find? (fun c => c.id == catId) with
        | none => s1
        | some cat =>
          (s.menuItems.filter (fun m => m.category == cat.name)).foldl
            (removeItemStep s.inventoryItems) s1
      deleteInventoryCategory s2 invCat.id

/-- The list of PortionOptions seeded by the portion loop of
handleAddInventoryCategory, starting at counter value `n`, for the
enumerated template entries `l`. -/
def mkSeedPortions : Nat → Nat → List (Nat × PortionTemplate) → List PortionOption
  | _, _, [] => []
  | n, icid, (i, t) :: rest =>
    { id := n, inventoryCategoryId := icid, name := t.name, size := t.size,
      priceMultiplier := t.multiplier, sortOrder := i, fixedPrice := none }
      :: mkSeedPortions (n + 1) icid rest

/-- The list of InventoryItems seeded by the item loop of
handleAddInventoryCategory, starting at counter value `n`. -/
def mkSeedItems : Nat → Option ℚ → InventoryUnitType → Option ℚ →
    List MenuItem → List InventoryItem
  | _, _, _, _, [] => []
  | n, bs, u, thr, m :: rest =>
    { id := n, menuItemId := m.id, currentStock := 0, defaultBottleSize := bs,
      unit := u, lowStockThreshold := thr } :: mkSeedItems (n + 1) bs u thr rest

/-- Multiplier per unit of size of a template entry (cost-per-ml scale of
the spec's economies-of-scale description). -/
def perUnitMultiplier (t : PortionTemplate) : ℚ := t.multiplier / t.size

/-- A minimal store: one category "Drinks" with one menu item "Whisky"
priced at 150, nothing tracked yet. -/
def demoState : StoreState :=
  { categories := [⟨0, "Drinks"⟩],
    menuItems := [⟨1, "Whisky", "Drinks", 150⟩],
    inventoryCategories := [], inventoryItems := [], portionOptions := [],
    itemPortionPrices := [], stockMutations := [], nextId := 2 }

/-- Registration form choosing the Drinks category with unit `ml` and
threshold 5. -/
def demoForm : RegisterForm := ⟨some 0, InventoryUnitType.ml, 5⟩

/-- The demo store after registering Drinks for tracking: default ml
portions seeded (ids 3..9), Whisky's InventoryItem created (id 10).
Written as an explicit record; the theorem `demoRegistered_eq` checks that
it is exactly the output of `handleAddInventoryCategory`. -/
def demoRegistered : StoreState :=
  { categories := [⟨0, "Drinks"⟩],
    menuItems := [⟨1, "Whisky", "Drinks", 150⟩],
    inventoryCategories := [⟨2, 0, InventoryUnitType.ml, 5⟩],
    inventoryItems := [⟨10, 1, 0, some 750, InventoryUnitType.ml, some 5⟩],
    portionOptions :=
      [⟨3, 2, "30ml (Peg)", 30, 0.5, 0, none⟩,
       ⟨4, 2, "60ml (Large)", 60, 1, 1, none⟩,
       ⟨5, 2, "90ml", 90, 1.5, 2, none⟩,
       ⟨6, 2, "180ml (QTR)", 180, 2.8, 3, none⟩,
       ⟨7, 2, "375ml (Half)", 375, 5.5, 4, none⟩,
       ⟨8, 2, "750ml (Full)", 750, 10, 5, none⟩,
       ⟨9, 2, "1000ml", 1000, 13.3, 6, none⟩],
    itemPortionPrices := [], stockMutations := [], nextId := 11 }

/-- A store with a tracked Whisky item whose current stock sits exactly at
its item-level threshold of 5. -/
def stockState : StoreState :=
  { categories := [⟨0, "Drinks"⟩],
    menuItems := [⟨1, "Whisky", "Drinks", 150⟩],
    inventoryCategories := [⟨2, 0, InventoryUnitType.ml, 5⟩],
    inventoryItems := [⟨3, 1, 5, some 750, InventoryUnitType.ml, some 5⟩],
    portionOptions := [], itemPortionPrices := [], stockMutations := [],
    nextId := 4 }

theorem jsRound_sub_le (q : ℚ) : |(jsRound q : ℚ) - q| ≤ 1/2 := by
  rw [abs_le]
  constructor
  · have h := Int.lt_floor_add_one (q + 1/2)
    unfold jsRound
    linarith
  · have h := Int.floor_le (q + 1/2)
    unfold jsRound
    linarith

theorem jsRound_mono {a b : ℚ} (h : a ≤ b) : jsRound a ≤ jsRound b := by
  unfold jsRound
  exact Int.floor_le_floor (by linarith)

theorem find?_append_left_none {α : Type _} {p : α → Bool} {l₁ l₂ : List α}
    (h : l₁.find? p = none) : (l₁ ++ l₂).find? p = l₂.find? p := by
  rw [List.find?_append, h, Option.none_or]

theorem seedPortions_foldl (icid : Nat) (l : List (Nat × PortionTemplate)) :
    ∀ st : StoreState,
      l.foldl (fun st pi =>
        addPortionOption st icid pi.2.name pi.2.size pi.2.multiplier pi.1) st
      = { st with
          portionOptions := st.portionOptions ++ mkSeedPortions st.nextId icid l,
          nextId := st.nextId + l.length } := by
  induction l with
  | nil => intro st; simp [mkSeedPortions]
  | cons hd tl ih =>
    intro st
    obtain ⟨i, t⟩ := hd
    rw [List.foldl_cons, ih]
    simp [addPortionOption, mkSeedPortions]
    omega

theorem seedItems_foldl (bs : Option ℚ) (u : InventoryUnitType) (thr : Option ℚ)
    (l : List MenuItem) : ∀ st : StoreState,
      l.foldl (fun st item => addInventoryItem st item.id 0 bs u thr) st
      = { st with
          inventoryItems := st.inventoryItems ++ mkSeedItems st.nextId bs u thr l,
          nextId := st.nextId + l.length } := by
  induction l with
  | nil => intro st; simp [mkSeedItems]
  | cons hd tl ih =>
    intro st
    rw [List.foldl_cons, ih]
    simp [addInventoryItem, mkSeedItems]
    omega

theorem deletePortions_foldl (ds : List PortionOption) : ∀ st : StoreState,
    ds.foldl (fun st p => deletePortionOption st p.id) st
    = { st with
        portionOptions :=
          st.portionOptions.filter (fun p => ds.all (fun d => p.id != d.id)) } := by
  induction ds with
  | nil => intro st; simp
  | cons hd tl ih =>
    intro st
    rw [List.foldl_cons, ih]
    simp only [deletePortionOption, List.filter_filter]
    congr 1
    apply List.filter_congr
    intro x _
    simp [List.all_cons, Bool.and_comm]

theorem deleteItems_foldl (S : List InventoryItem) (ms : List MenuItem) :
    ∀ st : StoreState,
      ms.foldl (removeItemStep S) st
      = { st with
          inventoryItems := st.inventoryItems.filter (removeItemKeep S ms) } := by
  induction ms with
  | nil =>
    intro st
    have h : removeItemKeep S [] = fun _ => true := by
      funext it
      simp [removeItemKeep]
    rw [h, List.filter_true]
    simp
  | cons hd tl ih =>
    intro st
    rw [List.foldl_cons]
    cases hfind : S.find? (fun ii => ii.menuItemId == hd.id) with
    | none =>
      rw [show removeItemStep S st hd = st by simp [removeItemStep, hfind], ih]
      congr 1
      apply List.filter_congr
      intro x _
      simp [removeItemKeep, List.all_cons, hfind]
    | some d =>
      rw [show removeItemStep S st hd = deleteInventoryItem st d.id by
        simp [removeItemStep, hfind], ih]
      simp only [deleteInventoryItem, List.filter_filter]
      congr 1
      apply List.filter_congr
      intro x _
      simp [removeItemKeep, List.all_cons, hfind, Bool.and_comm]

theorem mkSeedPortions_length (n icid : Nat) (l : List (Nat × PortionTemplate)) :
    (mkSeedPortions n icid l).length = l.length := by
  induction l generalizing n with
  | nil => simp [mkSeedPortions]
  | cons hd tl ih =>
    obtain ⟨i, t⟩ := hd
    simp [mkSeedPortions, ih]

theorem mkSeedPortions_mem {n icid : Nat} {l : List (Nat × PortionTemplate)}
    {p : PortionOption} (hp : p ∈ mkSeedPortions n icid l) :
    p.inventoryCategoryId = icid ∧ n ≤ p.id ∧ p.id < n + l.length := by
  induction l generalizing n with
  | nil => simp [mkSeedPortions] at hp
  | cons hd tl ih =>
    obtain ⟨i, t⟩ := hd
    simp only [mkSeedPortions, List.mem_cons] at hp
    rcases hp with h | h
    · subst h
      refine ⟨rfl, le_refl _, ?_⟩
      simp
    · obtain ⟨h1, h2, h3⟩ := ih h
      refine ⟨h1, by omega, ?_⟩
      simp only [List.length_cons]
      omega

theorem mkSeedPortions_sortOrders (n icid : Nat) (l : List (Nat × PortionTemplate)) :
    (mkSeedPortions n icid l).map (fun p => p.sortOrder) = l.map (fun pi => pi.1) := by
  induction l generalizing n with
  | nil => simp [mkSeedPortions]
  | cons hd tl ih =>
    obtain ⟨i, t⟩ := hd
    simp [mkSeedPortions, ih]

theorem mkSeedItems_length (n : Nat) (bs : Option ℚ) (u : InventoryUnitType)
    (thr : Option ℚ) (l : List MenuItem) :
    (mkSeedItems n bs u thr l).length = l.length := by
  induction l generalizing n with
  | nil => simp [mkSeedItems]
  | cons hd tl ih => simp [mkSeedItems, ih]

theorem mkSeedItems_mem {n : Nat} {bs : Option ℚ} {u : InventoryUnitType}
    {thr : Option ℚ} {l : List MenuItem} {it : InventoryItem}
    (h : it ∈ mkSeedItems n bs u thr l) :
    it.currentStock = 0 ∧ it.defaultBottleSize = bs ∧ it.unit = u ∧
    it.lowStockThreshold = thr ∧ n ≤ it.id ∧ it.id < n + l.length ∧
    ∃ m ∈ l, it.menuItemId = m.id := by
  induction l generalizing n with
  | nil => simp [mkSeedItems] at h
  | cons hd tl ih =>
    simp only [mkSeedItems, List.mem_cons] at h
    rcases h with h | h
    · subst h
      refine ⟨rfl, rfl, rfl, rfl, le_refl _, by simp, hd, by simp, rfl⟩
    · obtain ⟨h1, h2, h3, h4, h5, h6, m, hm, hmid⟩ := ih h
      exact ⟨h1, h2, h3, h4, by omega, by simp only [List.length_cons]; omega,
        m, List.mem_cons_of_mem _ hm, hmid⟩

theorem mkSeedItems_inj {n : Nat} {bs : Option ℚ} {u : InventoryUnitType}
    {thr : Option ℚ} {l : List MenuItem}
    (hnodup : (l.map (fun m => m.id)).Nodup) :
    ∀ a ∈ mkSeedItems n bs u thr l, ∀ b ∈ mkSeedItems n bs u thr l,
      a.menuItemId = b.menuItemId → a = b := by
  induction l generalizing n with
  | nil => intro a ha; simp [mkSeedItems] at ha
  | cons hd tl ih =>
    intro a ha b hb hab
    simp only [List.map_cons, List.nodup_cons] at hnodup
    obtain ⟨hhd, htl⟩ := hnodup
    simp only [mkSeedItems, List.mem_cons] at ha hb
    rcases ha with ha | ha <;> rcases hb with hb | hb
    · rw [ha, hb]
    · exfalso
      obtain ⟨_, _, _, _, _, _, m, hm, hmid⟩ := mkSeedItems_mem hb
      apply hhd
      rw [List.mem_map]
      refine ⟨m, hm, ?_⟩
      rw [← hmid, ← hab, ha]
    · exfalso
      obtain ⟨_, _, _, _, _, _, m, hm, hmid⟩ := mkSeedItems_mem ha
      apply hhd
      rw [List.mem_map]
      refine ⟨m, hm, ?_⟩
      rw [← hmid, hab, hb]
    · exact ih htl a ha b hb hab

theorem register_eq (s : StoreState) (f : RegisterForm) (cid : Nat) (cat : Category)
    (hsel : f.selectedCategory = some cid)
    (hcat : s.categories.find? (fun c => c.id == cid) = some cat)
    (huntracked : ∀ ic ∈ s.inventoryCategories, ic.categoryId ≠ cid) :
    handleAddInventoryCategory s f = some
      { s with
        inventoryCategories := s.inventoryCategories ++
          [{ id := s.nextId, categoryId := cid, unitType := f.selectedUnit,
             lowStockThreshold := f.lowStockThreshold }],
        portionOptions := s.portionOptions ++
          mkSeedPortions (s.nextId + 1) s.nextId
            ((defaultPortionsFor f.selectedUnit).enum),
        inventoryItems := s.inventoryItems ++
          mkSeedItems (s.nextId + 1 + (defaultPortionsFor f.selectedUnit).length)
            (if f.selectedUnit = InventoryUnitType.ml then some 750 else none)
            f.selectedUnit (some f.lowStockThreshold)
            (s.menuItems.filter (fun m => m.category == cat.name)),
        nextId := s.nextId + 1 + (defaultPortionsFor f.selectedUnit).length
          + (s.menuItems.filter (fun m => m.category == cat.name)).length } := by
  have h1 : s.inventoryCategories.find? (fun ic => ic.categoryId == cid) = none := by
    rw [List.find?_eq_none]
    intro ic hic
    simp only [beq_iff_eq]
    exact huntracked ic hic
  have h2 : (addInventoryCategory s cid f.selectedUnit
      f.lowStockThreshold).inventoryCategories.find?
        (fun ic => ic.categoryId == cid)
      = some { id := s.nextId, categoryId := cid, unitType := f.selectedUnit,
               lowStockThreshold := f.lowStockThreshold } := by
    simp only [addInventoryCategory]
    rw [find?_append_left_none h1]
    simp [List.find?]
  simp only [handleAddInventoryCategory, hsel, hcat, h2]
  rw [seedPortions_foldl, seedItems_foldl]
  simp only [addInventoryCategory, List.enum_length]

theorem find?_append_singleton {α : Type _} {p : α → Bool} {l : List α} {x : α}
    (h : l.find? p = none) (hx : p x = true) : (l ++ [x]).find? p = some x := by
  rw [find?_append_left_none h]
  simp [List.find?, hx]

theorem mkSeedItems_covers {n : Nat} {bs : Option ℚ} {u : InventoryUnitType}
    {thr : Option ℚ} {l : List MenuItem} :
    ∀ m ∈ l, ∃ it ∈ mkSeedItems n bs u thr l, it.menuItemId = m.id := by
  induction l generalizing n with
  | nil => intro m hm; simp at hm
  | cons hd tl ih =>
    intro m hm
    rcases List.mem_cons.mp hm with h | h
    · subst h
      exact ⟨_, List.mem_cons_self _ _, rfl⟩
    · obtain ⟨it, hit, hid⟩ := ih m h
      exact ⟨it, List.mem_cons_of_mem _ hit, hid⟩

theorem unregister_after_register
    (s : StoreState) (f : RegisterForm) (cid : Nat) (cat : Category)
    (s3 : StoreState)
    (hsel : f.selectedCategory = some cid)
    (hcat : s.categories.find? (fun c => c.id == cid) = some cat)
    (huntracked : ∀ ic ∈ s.inventoryCategories, ic.categoryId ≠ cid)
    (hicid : ∀ ic ∈ s.inventoryCategories, ic.id < s.nextId)
    (hpo : ∀ p ∈ s.portionOptions,
      p.id < s.nextId ∧ p.inventoryCategoryId < s.nextId)
    (hit : ∀ it ∈ s.inventoryItems, it.id < s.nextId)
    (hnotrk : ∀ it ∈ s.inventoryItems, ∀ m ∈ s.menuItems,
      m.category = cat.name → it.menuItemId ≠ m.id)
    (hnodup : (s.menuItems.map (fun m => m.id)).Nodup)
    (hreg : handleAddInventoryCategory s f = some s3) :
    handleRemoveCategory s3 cid true = { s with nextId := s3.nextId } := by
  have hX := register_eq s f cid cat hsel hcat huntracked
  rw [hreg] at hX
  have hs3 := Option.some.inj hX
  subst hs3
  have hfICnone : s.inventoryCategories.find? (fun ic => ic.categoryId == cid)
      = none := by
    rw [List.find?_eq_none]
    intro ic hic
    simp only [beq_iff_eq]
    exact huntracked ic hic
  have hfIC : (s.inventoryCategories ++
      ([⟨s.nextId, cid, f.selectedUnit, f.lowStockThreshold⟩] :
        List InventoryCategory)).find? (fun ic => ic.categoryId == cid)
      = some ⟨s.nextId, cid, f.selectedUnit, f.lowStockThreshold⟩ :=
    find?_append_singleton hfICnone (by simp)
  have hmem_ms : ∀ m ∈ s.menuItems.filter (fun m => m.category == cat.name),
      m ∈ s.menuItems ∧ m.category = cat.name := by
    intro m hm
    rw [List.mem_filter] at hm
    exact ⟨hm.1, beq_iff_eq.mp hm.2⟩
  have hmsNodup : ((s.menuItems.filter (fun m => m.category == cat.name)).map
      (fun m => m.id)).Nodup :=
    List.Nodup.sublist (List.Sublist.map _ (List.filter_sublist _)) hnodup
  have hfindOld : ∀ m ∈ s.menuItems.filter (fun m => m.category == cat.name),
      s.inventoryItems.find? (fun ii => ii.menuItemId == m.id) = none := by
    intro m hm
    rw [List.find?_eq_none]
    intro it hit2
    simp only [beq_iff_eq]
    exact hnotrk it hit2 m (hmem_ms m hm).1 (hmem_ms m hm).2
  have hfind : ∀ m ∈ s.menuItems.filter (fun m => m.category == cat.name),
      ∃ d, (s.inventoryItems ++
          mkSeedItems (s.nextId + 1 + (defaultPortionsFor f.selectedUnit).length)
            (if f.selectedUnit = InventoryUnitType.ml then some 750 else none)
            f.selectedUnit (some f.lowStockThreshold)
            (s.menuItems.filter (fun m => m.category == cat.name))).find?
          (fun ii => ii.menuItemId == m.id) = some d ∧
        d ∈ mkSeedItems (s.nextId + 1 + (defaultPortionsFor f.selectedUnit).length)
          (if f.selectedUnit = InventoryUnitType.ml then some 750 else none)
          f.selectedUnit (some f.lowStockThreshold)
          (s.menuItems.filter (fun m => m.category == cat.name)) ∧
        d.menuItemId = m.id := by
    intro m hm
    rw [find?_append_left_none (hfindOld m hm)]
    obtain ⟨it0, hit0, hid0⟩ := @mkSeedItems_covers
      (s.nextId + 1 + (defaultPortionsFor f.selectedUnit).length)
      (if f.selectedUnit = InventoryUnitType.ml then some 750 else none)
      f.selectedUnit (some f.lowStockThreshold)
      (s.menuItems.filter (fun m => m.category == cat.name)) m hm
    cases hf : (mkSeedItems (s.nextId + 1 + (defaultPortionsFor f.selectedUnit).length)
        (if f.selectedUnit = InventoryUnitType.ml then some 750 else none)
        f.selectedUnit (some f.lowStockThreshold)
        (s.menuItems.filter (fun m => m.category == cat.name))).find?
        (fun ii => ii.menuItemId == m.id) with
    | none =>
      exact absurd
        (show ((fun ii => ii.menuItemId == m.id) it0) = true by simp [hid0])
        (List.find?_eq_none.mp hf it0 hit0)
    | some d =>
      have hpd := List.find?_some hf
      simp only [beq_iff_eq] at hpd
      exact ⟨d, rfl, List.mem_of_find?_eq_some hf, hpd⟩
  have hds : (s.portionOptions ++
      mkSeedPortions (s.nextId + 1) s.nextId
        ((defaultPortionsFor f.selectedUnit).enum)).filter
      (fun p => p.inventoryCategoryId == s.nextId)
      = mkSeedPortions (s.nextId + 1) s.nextId
          ((defaultPortionsFor f.selectedUnit).enum) := by
    rw [List.filter_append]
    have h1 : s.portionOptions.filter (fun p => p.inventoryCategoryId == s.nextId)
        = [] := by
      rw [List.filter_eq_nil_iff]
      intro p hp
      simp only [beq_iff_eq]
      have := (hpo p hp).2
      omega
    have h2 : (mkSeedPortions (s.nextId + 1) s.nextId
        ((defaultPortionsFor f.selectedUnit).enum)).filter
        (fun p => p.inventoryCategoryId == s.nextId)
        = mkSeedPortions (s.nextId + 1) s.nextId
            ((defaultPortionsFor f.selectedUnit).enum) := by
      rw [List.filter_eq_self]
      intro p hp
      simp only [beq_iff_eq]
      exact (mkSeedPortions_mem hp).1
    rw [h1, h2, List.nil_append]
  have hresP : (s.portionOptions ++
      mkSeedPortions (s.nextId + 1) s.nextId
        ((defaultPortionsFor f.selectedUnit).enum)).filter
      (fun p => (mkSeedPortions (s.nextId + 1) s.nextId
        ((defaultPortionsFor f.selectedUnit).enum)).all (fun d => p.id != d.id))
      = s.portionOptions := by
    rw [List.filter_append]
    have h1 : s.portionOptions.filter
        (fun p => (mkSeedPortions (s.nextId + 1) s.nextId
          ((defaultPortionsFor f.selectedUnit).enum)).all (fun d => p.id != d.id))
        = s.portionOptions := by
      rw [List.filter_eq_self]
      intro p hp
      rw [List.all_eq_true]
      intro d hd
      rw [bne_iff_ne]
      have h3 := (mkSeedPortions_mem hd).2.1
      have h4 := (hpo p hp).1
      omega
    have h2 : (mkSeedPortions (s.nextId + 1) s.nextId
        ((defaultPortionsFor f.selectedUnit).enum)).filter
        (fun p => (mkSeedPortions (s.nextId + 1) s.nextId
          ((defaultPortionsFor f.selectedUnit).enum)).all (fun d => p.id != d.id))
        = [] := by
      rw [List.filter_eq_nil_iff]
      intro p hp hall
      rw [List.all_eq_true] at hall
      have := hall p hp
      simp at this
    rw [h1, h2, List.append_nil]
  have hresI : (s.inventoryItems ++
      mkSeedItems (s.nextId + 1 + (defaultPortionsFor f.selectedUnit).length)
        (if f.selectedUnit = InventoryUnitType.ml then some 750 else none)
        f.selectedUnit (some f.lowStockThreshold)
        (s.menuItems.filter (fun m => m.category == cat.name))).filter
      (removeItemKeep
        (s.inventoryItems ++
          mkSeedItems (s.nextId + 1 + (defaultPortionsFor f.selectedUnit).length)
            (if f.selectedUnit = InventoryUnitType.ml then some 750 else none)
            f.selectedUnit (some f.lowStockThreshold)
            (s.menuItems.filter (fun m => m.category == cat.name)))
        (s.menuItems.filter (fun m => m.category == cat.name)))
      = s.inventoryItems := by
    rw [List.filter_append]
    have h1 : s.inventoryItems.filter
        (removeItemKeep
          (s.inventoryItems ++
          mkSeedItems (s.nextId + 1 + (defaultPortionsFor f.selectedUnit).length)
            (if f.selectedUnit = InventoryUnitType.ml then some 750 else none)
            f.selectedUnit (some f.lowStockThreshold)
            (s.menuItems.filter (fun m => m.category == cat.name)))
          (s.menuItems.filter (fun m => m.category == cat.name)))
        = s.inventoryItems := by
      rw [List.filter_eq_self]
      intro it hit2
      unfold removeItemKeep
      rw [List.all_eq_true]
      intro m hm
      obtain ⟨d, hd, hdseed, hdmid⟩ := hfind m hm
      simp only [hd]
      rw [bne_iff_ne]
      have h5 := (mkSeedItems_mem hdseed).2.2.2.2.1
      have h6 := hit it hit2
      omega
    have h2 : (mkSeedItems (s.nextId + 1 + (defaultPortionsFor f.selectedUnit).length)
        (if f.selectedUnit = InventoryUnitType.ml then some 750 else none)
        f.selectedUnit (some f.lowStockThreshold)
        (s.menuItems.filter (fun m => m.category == cat.name))).filter
        (removeItemKeep
          (s.inventoryItems ++
          mkSeedItems (s.nextId + 1 + (defaultPortionsFor f.selectedUnit).length)
            (if f.selectedUnit = InventoryUnitType.ml then some 750 else none)
            f.selectedUnit (some f.lowStockThreshold)
            (s.menuItems.filter (fun m => m.category == cat.name)))
          (s.menuItems.filter (fun m => m.category == cat.name)))
        = [] := by
      rw [List.filter_eq_nil_iff]
      intro it hitseed hkeep
      obtain ⟨_, _, _, _, _, _, m, hm, hmid⟩ := mkSeedItems_mem hitseed
      unfold removeItemKeep at hkeep
      rw [List.all_eq_true] at hkeep
      have hk := hkeep m hm
      obtain ⟨d, hd, hdseed, hdmid⟩ := hfind m hm
      simp only [hd] at hk
      rw [bne_iff_ne] at hk
      exact hk (congrArg InventoryItem.id
        (mkSeedItems_inj hmsNodup it hitseed d hdseed (by rw [hmid, hdmid])))
    rw [h1, h2, List.append_nil]
  have hicfilter : (s.inventoryCategories ++
      ([⟨s.nextId, cid, f.selectedUnit, f.lowStockThreshold⟩] :
        List InventoryCategory)).filter
      (fun ic => ic.id != s.nextId) = s.inventoryCategories := by
    rw [List.filter_append]
    have h1 : s.inventoryCategories.filter (fun ic => ic.id != s.nextId)
        = s.inventoryCategories := by
      rw [List.filter_eq_self]
      intro ic hic
      rw [bne_iff_ne]
      have := hicid ic hic
      omega
    have h2 : (([⟨s.nextId, cid, f.selectedUnit, f.lowStockThreshold⟩] :
        List InventoryCategory)).filter (fun ic => ic.id != s.nextId) = [] := by
      simp
    rw [h1, h2, List.append_nil]
  simp only [handleRemoveCategory, Bool.not_true, hfIC, hcat]
  rw [hds, deletePortions_foldl, hresP]
  rw [deleteItems_foldl]
  simp only [hresI]
  simp only [deleteInventoryCategory, hicfilter]
  simp

theorem upsert_find (l : List ItemPortionPrice) (mid pid : Nat) (pr : ℚ) :
    (upsertOverride l mid pid pr).find? (overrideKey mid pid)
      = some ⟨mid, pid, pr⟩ := by
  induction l with
  | nil => simp [upsertOverride, List.find?, overrideKey]
  | cons e rest ih =>
    simp only [upsertOverride]
    by_cases h : overrideKey mid pid e = true
    · rw [if_pos h]
      simp [List.find?, overrideKey]
    · rw [if_neg h]
      rw [Bool.not_eq_true] at h
      simp [List.find?, h, ih]

theorem register_items (s : StoreState) (f : RegisterForm) (s2 : StoreState)
    (h : handleAddInventoryCategory s f = some s2) :
    ∃ n ms, s2.inventoryItems = s.inventoryItems ++
      mkSeedItems n
        (if f.selectedUnit = InventoryUnitType.ml then some 750 else none)
        f.selectedUnit (some f.lowStockThreshold) ms := by
  unfold handleAddInventoryCategory at h
  cases hsel : f.selectedCategory with
  | none => simp [hsel] at h
  | some cid =>
    simp only [hsel] at h
    cases hcat : s.categories.find? (fun c => c.id == cid) with
    | none => simp [hcat] at h
    | some cat =>
      simp only [hcat] at h
      cases hic : (addInventoryCategory s cid f.selectedUnit
          f.lowStockThreshold).inventoryCategories.find?
            (fun ic => ic.categoryId == cid) with
      | none =>
        simp only [hic, Option.some.injEq] at h
        rw [seedItems_foldl] at h
        exact ⟨s.nextId + 1,
          s.menuItems.filter (fun m => m.category == cat.name),
          by rw [← h]; simp [addInventoryCategory]⟩
      | some newInvCat =>
        simp only [hic, Option.some.injEq] at h
        rw [seedPortions_foldl, seedItems_foldl] at h
        exact ⟨s.nextId + 1 + (defaultPortionsFor f.selectedUnit).enum.length,
          s.menuItems.filter (fun m => m.category == cat.name),
          by rw [← h]; simp [addInventoryCategory]⟩

theorem getPortionPrice_computed (s : StoreState) (mid pid : Nat)
    (h : getItemPortionPrice s mid pid = none)
    (m : MenuItem) (p : PortionOption)
    (hm : s.menuItems.find? (fun x => x.id == mid) = some m)
    (hp : (getPortionsByCategory s m.category).find? (fun x => x.id == pid)
      = some p) :
    getPortionPrice s mid pid
      = some ((computedPortionPrice m.price
          (getPortionsByCategory s m.category) p : ℤ) : ℚ) := by
  simp only [getPortionPrice, h, hm, hp]

theorem demoRegistered_eq :
    handleAddInventoryCategory demoState demoForm = some demoRegistered := by
  rw [register_eq demoState demoForm 0 ⟨0, "Drinks"⟩ rfl rfl
    (by intro ic hic; simp [demoState] at hic)]
  with_unfolding_all decide

/-- Claim C1: override precedence for getPortionPrice — once an
ItemPortionPrice has been set via setItemPortionPrice for a (menu item,
portion) pair, getPortionPrice returns exactly the stored value, unchanged
and independent of any later change to the portion multipliers; only when
no override exists does it return the multiplier-computed price. -/
theorem override_precedence :
    (∀ (s : StoreState) (mid pid : Nat) (pr : ℚ) (ps2 : List PortionOption),
      getPortionPrice
        { setItemPortionPrice s mid pid pr with portionOptions := ps2 } mid pid
        = some pr) ∧
    (∀ (s : StoreState) (mid pid : Nat),
      getItemPortionPrice s mid pid = none →
      ∀ (m : MenuItem) (p : PortionOption),
        s.menuItems.find? (fun x => x.id == mid) = some m →
        (getPortionsByCategory s m.category).find? (fun x => x.id == pid)
          = some p →
        getPortionPrice s mid pid
          = some ((computedPortionPrice m.price
              (getPortionsByCategory s m.category) p : ℤ) : ℚ)) := by
  constructor
  · intro s mid pid pr ps2
    have h : getItemPortionPrice
        { setItemPortionPrice s mid pid pr with portionOptions := ps2 } mid pid
        = some pr := by
      simp only [getItemPortionPrice, setItemPortionPrice]
      rw [upsert_find]
      rfl
    simp only [getPortionPrice, h]
  · intro s mid pid h m p hm hp
    exact getPortionPrice_computed s mid pid h m p hm hp

/-- Witness for C1: in the registered demo store, setting an override of
999 for (Whisky, 30ml portion) makes getPortionPrice return 999 even after
dropping every portion option; without an override the 30ml price is the
multiplier-computed one. -/
theorem override_precedence_check :
    getPortionPrice
      { setItemPortionPrice demoRegistered 1 3 999 with portionOptions := [] }
      1 3 = some 999 ∧
    getItemPortionPrice demoRegistered 1 3 = none ∧
    getPortionPrice demoRegistered 1 3
      = some ((computedPortionPrice 150
          (getPortionsByCategory demoRegistered "Drinks")
          ⟨3, 2, "30ml (Peg)", 30, 0.5, 0, none⟩ : ℤ) : ℚ) := by
  refine ⟨override_precedence.1 demoRegistered 1 3 999 [],
    by with_unfolding_all decide, ?_⟩
  exact override_precedence.2 demoRegistered 1 3 (by with_unfolding_all decide)
    ⟨1, "Whisky", "Drinks", 150⟩ ⟨3, 2, "30ml (Peg)", 30, 0.5, 0, none⟩
    (by with_unfolding_all rfl) (by with_unfolding_all rfl)

/-- Claim C2 (counterexample): in the worked scenario (default ml ladder,
item priced 150), getPortionPrice does NOT return 75 for the 30ml portion
nor 1500 for the 750ml portion: the code divides by the minimum multiplier
(0.5, the 30ml tier), not by the multiplier-1 tier the claim assumes. -/
theorem scenario_prices_counterexample :
    getPortionPrice demoRegistered 1 3 ≠ some 75 ∧
    getPortionPrice demoRegistered 1 8 ≠ some 1500 := by
  with_unfolding_all decide

/-- Claim C2 (amended): with the default ml ladder seeded and the item
priced 150, the base price is interpreted as quoted at the
minimum-multiplier (30ml, 0.5) tier, so getPortionPrice returns
round(150/0.5*0.5) = 150 for the 30ml portion and round(150/0.5*10) = 3000
for the 750ml portion. -/
theorem scenario_prices :
    computedPortionPrice 150 (getPortionsByCategory demoRegistered "Drinks")
      ⟨3, 2, "30ml (Peg)", 30, 0.5, 0, none⟩ = 150 ∧
    computedPortionPrice 150 (getPortionsByCategory demoRegistered "Drinks")
      ⟨8, 2, "750ml (Full)", 750, 10, 5, none⟩ = 3000 ∧
    getPortionPrice demoRegistered 1 3 = some 150 ∧
    getPortionPrice demoRegistered 1 8 = some 3000 := by
  have h8 := getPortionPrice_computed demoRegistered 1 8
    (by with_unfolding_all decide)
    ⟨1, "Whisky", "Drinks", 150⟩ ⟨8, 2, "750ml (Full)", 750, 10, 5, none⟩
    (by with_unfolding_all rfl) (by with_unfolding_all rfl)
  have hc8 : computedPortionPrice 150
      (getPortionsByCategory demoRegistered "Drinks")
      ⟨8, 2, "750ml (Full)", 750, 10, 5, none⟩ = 3000 := by
    with_unfolding_all decide
  refine ⟨by with_unfolding_all decide, hc8, by with_unfolding_all decide, ?_⟩
  rw [h8, hc8]
  norm_num

/-- Claim C4: for a category's portions whose minimum multiplier is
positive, a menu item with non-negative base price and no override, the
computed price at the minimum-multiplier portion is the rounded base price,
which is within 1/2 of the base price. -/
theorem base_portion_price_identity (basePrice : ℚ) (ps : List PortionOption)
    (p : PortionOption) (hlen : 2 ≤ ps.length) (hmem : p ∈ ps)
    (hmin : 0 < minMultiplier ps) (hp : p.priceMultiplier = minMultiplier ps)
    (hbase : 0 ≤ basePrice) :
    computedPortionPrice basePrice ps p = jsRound basePrice ∧
    |(jsRound basePrice : ℚ) - basePrice| ≤ 1/2 := by
  constructor
  · unfold computedPortionPrice
    rw [hp, div_mul_cancel₀ _ (ne_of_gt hmin)]
  · exact jsRound_sub_le basePrice

/-- Witness for C4 on the seeded Drinks portions: the 30ml portion carries
the minimum multiplier and prices at round(150) = 150. -/
theorem base_portion_price_identity_check :
    0 < minMultiplier (getPortionsByCategory demoRegistered "Drinks") ∧
    computedPortionPrice 150 (getPortionsByCategory demoRegistered "Drinks")
      ⟨3, 2, "30ml (Peg)", 30, 0.5, 0, none⟩ = jsRound 150 ∧
    |(jsRound 150 : ℚ) - 150| ≤ 1/2 := by
  have h := base_portion_price_identity 150
    (getPortionsByCategory demoRegistered "Drinks")
    ⟨3, 2, "30ml (Peg)", 30, 0.5, 0, none⟩
    (by with_unfolding_all decide) (by with_unfolding_all decide)
    (by with_unfolding_all decide) (by with_unfolding_all decide)
    (by with_unfolding_all decide)
  exact ⟨by with_unfolding_all decide, h.1, h.2⟩

/-- Claim C8: price monotonicity — for a fixed item with non-negative base
price in a category with positive minimum multiplier, a portion with the
larger multiplier never computes to a smaller price. -/
theorem price_monotonicity (basePrice : ℚ) (ps : List PortionOption)
    (A B : PortionOption) (hA : A ∈ ps) (hB : B ∈ ps)
    (hbase : 0 ≤ basePrice) (hmin : 0 < minMultiplier ps)
    (hmul : B.priceMultiplier < A.priceMultiplier) :
    computedPortionPrice basePrice ps B ≤ computedPortionPrice basePrice ps A := by
  unfold computedPortionPrice
  apply jsRound_mono
  have hu : 0 ≤ basePrice / minMultiplier ps := div_nonneg hbase (le_of_lt hmin)
  exact mul_le_mul_of_nonneg_left (le_of_lt hmul) hu

/-- Witness for C8 on the seeded Drinks portions: the 750ml price is at
least the 30ml price. -/
theorem price_monotonicity_check :
    (0.5 : ℚ) < 10 ∧
    computedPortionPrice 150 (getPortionsByCategory demoRegistered "Drinks")
        ⟨3, 2, "30ml (Peg)", 30, 0.5, 0, none⟩
      ≤ computedPortionPrice 150 (getPortionsByCategory demoRegistered "Drinks")
        ⟨8, 2, "750ml (Full)", 750, 10, 5, none⟩ := by
  refine ⟨by with_unfolding_all decide, ?_⟩
  exact price_monotonicity 150 (getPortionsByCategory demoRegistered "Drinks")
    ⟨8, 2, "750ml (Full)", 750, 10, 5, none⟩
    ⟨3, 2, "30ml (Peg)", 30, 0.5, 0, none⟩
    (by with_unfolding_all decide) (by with_unfolding_all decide)
    (by with_unfolding_all decide) (by with_unfolding_all decide)
    (by with_unfolding_all decide)

/-- Claim C10: every InventoryItem created by registering a category is
seeded with zero stock, the registration threshold as item threshold, and
defaultBottleSize 750 exactly when the unit type is ml (unset otherwise). -/
theorem seeded_item_defaults (s : StoreState) (f : RegisterForm)
    (s2 : StoreState) (h : handleAddInventoryCategory s f = some s2) :
    ∀ it ∈ s2.inventoryItems, it ∉ s.inventoryItems →
      it.currentStock = 0 ∧ it.lowStockThreshold = some f.lowStockThreshold ∧
      it.defaultBottleSize
        = (if f.selectedUnit = InventoryUnitType.ml then some 750 else none) := by
  obtain ⟨n, ms, heq⟩ := register_items s f s2 h
  intro it hit hnotin
  rw [heq] at hit
  rcases List.mem_append.mp hit with h1 | h1
  · exact absurd h1 hnotin
  · obtain ⟨hstock, hbs, _, hthr, _⟩ := mkSeedItems_mem h1
    exact ⟨hstock, hthr, hbs⟩

/-- Witness for C10: the InventoryItem seeded for Whisky in the ml demo
registration has stock 0, threshold 5 and default bottle size 750. -/
theorem seeded_item_defaults_check :
    (⟨10, 1, 0, some 750, InventoryUnitType.ml, some 5⟩ : InventoryItem)
      ∈ demoRegistered.inventoryItems ∧
    ((⟨10, 1, 0, some 750, InventoryUnitType.ml, some 5⟩ :
        InventoryItem).currentStock = 0 ∧
     (⟨10, 1, 0, some 750, InventoryUnitType.ml, some 5⟩ :
        InventoryItem).lowStockThreshold = some demoForm.lowStockThreshold ∧
     (⟨10, 1, 0, some 750, InventoryUnitType.ml, some 5⟩ :
        InventoryItem).defaultBottleSize
       = (if demoForm.selectedUnit = InventoryUnitType.ml
          then some 750 else none)) := by
  refine ⟨by with_unfolding_all decide, ?_⟩
  exact seeded_item_defaults demoState demoForm demoRegistered
    demoRegistered_eq
    ⟨10, 1, 0, some 750, InventoryUnitType.ml, some 5⟩
    (by with_unfolding_all decide) (by with_unfolding_all decide)

/-- Claim C3: low-stock membership and threshold resolution — an
InventoryItem is in listLowStockItems exactly when its current stock is at
or below `lowStockThreshold ?? categoryDefaultThreshold ?? 5`; in
particular stock equal to the resolved threshold is in the set and
threshold + 1 is out. -/
theorem lowStock_membership (s : StoreState) (it : InventoryItem)
    (hmem : it ∈ s.inventoryItems)
    (hnodup : (s.inventoryItems.map (fun i => i.id)).Nodup) :
    ((∃ e ∈ listLowStockItems s, e.inventoryItemId = it.id) ↔
      it.currentStock ≤ resolvedThreshold s it) ∧
    (it.currentStock = resolvedThreshold s it →
      ∃ e ∈ listLowStockItems s, e.inventoryItemId = it.id) ∧
    (it.currentStock = resolvedThreshold s it + 1 →
      ¬ ∃ e ∈ listLowStockItems s, e.inventoryItemId = it.id) := by
  have hiff : (∃ e ∈ listLowStockItems s, e.inventoryItemId = it.id) ↔
      it.currentStock ≤ resolvedThreshold s it := by
    constructor
    · rintro ⟨e, he, heid⟩
      unfold listLowStockItems at he
      rw [List.mem_map] at he
      obtain ⟨it2, hit2, heq⟩ := he
      rw [List.mem_filter] at hit2
      have hid : it2.id = it.id := by
        rw [← heq] at heid
        exact heid
      have hte : it2 = it :=
        List.inj_on_of_nodup_map hnodup hit2.1 hmem hid
      have hlow := hit2.2
      rw [hte] at hlow
      simp only [isLowStock, decide_eq_true_eq] at hlow
      exact hlow
    · intro hle
      have hmemf : it ∈ s.inventoryItems.filter (fun i => isLowStock s i) :=
        List.mem_filter.mpr ⟨hmem, by
          simp only [isLowStock, decide_eq_true_eq]
          exact hle⟩
      exact ⟨_, List.mem_map_of_mem _ hmemf, rfl⟩
  refine ⟨hiff, fun h => hiff.mpr (le_of_eq h), fun h hex => ?_⟩
  have hle := hiff.mp hex
  rw [h] at hle
  linarith

/-- Witness for C3: in a store whose Whisky item has stock 5 and resolved
threshold 5, the item is listed; the membership test agrees with the
threshold comparison. -/
theorem lowStock_membership_check :
    ((∃ e ∈ listLowStockItems stockState, e.inventoryItemId
        = (⟨3, 1, 5, some 750, InventoryUnitType.ml, some 5⟩ :
            InventoryItem).id) ↔
      (⟨3, 1, 5, some 750, InventoryUnitType.ml, some 5⟩ :
          InventoryItem).currentStock
        ≤ resolvedThreshold stockState
            ⟨3, 1, 5, some 750, InventoryUnitType.ml, some 5⟩) ∧
    ((⟨3, 1, 5, some 750, InventoryUnitType.ml, some 5⟩ :
        InventoryItem).currentStock
      = resolvedThreshold stockState
          ⟨3, 1, 5, some 750, InventoryUnitType.ml, some 5⟩ →
      ∃ e ∈ listLowStockItems stockState, e.inventoryItemId
        = (⟨3, 1, 5, some 750, InventoryUnitType.ml, some 5⟩ :
            InventoryItem).id) ∧
    ((⟨3, 1, 5, some 750, InventoryUnitType.ml, some 5⟩ :
        InventoryItem).currentStock
      = resolvedThreshold stockState
          ⟨3, 1, 5, some 750, InventoryUnitType.ml, some 5⟩ + 1 →
      ¬ ∃ e ∈ listLowStockItems stockState, e.inventoryItemId
        = (⟨3, 1, 5, some 750, InventoryUnitType.ml, some 5⟩ :
            InventoryItem).id) :=
  lowStock_membership stockState
    ⟨3, 1, 5, some 750, InventoryUnitType.ml, some 5⟩
    (by with_unfolding_all decide) (by decide)

/-- Claim C5: add-stock validation — whenever the resolved quantity of the
add-stock form is not a strictly positive finite number, the submission
does not reach a successful addStock and the store state is unchanged; in
particular a submission with empty direct quantity and no bottle count is
rejected with the selection error and no state change. -/
theorem addStock_validation (s : StoreState) (f : AddStockForm) :
    ((resolvedQuantity f).isPosFinite = false →
      (handleAddStock s f).1.isAdded = false ∧ (handleAddStock s f).2 = s) ∧
    (f.stockQuantity = none → f.bottleCount = none →
      (handleAddStock s f).1 = AddStockOutcome.selectError ∧
      (handleAddStock s f).2 = s) := by
  constructor
  · intro h
    unfold handleAddStock
    by_cases hg : (f.stockMenuItemId.isNone ||
        (f.stockQuantity.isNone && f.bottleCount.isNone)) = true
    · rw [if_pos hg]
      exact ⟨rfl, rfl⟩
    · rw [if_neg hg]
      cases hinv : getInventoryByMenuItemId s (f.stockMenuItemId.getD 0) with
      | none => simp [hinv, AddStockOutcome.isAdded]
      | some invItem =>
        cases hq : resolvedQuantity f with
        | nan =>
          simp [hinv, hq, addStock, JsNum.leZero, AddStockOutcome.isAdded]
        | num q =>
          have hq0 : q ≤ 0 := by
            rw [hq] at h
            simp only [JsNum.isPosFinite, decide_eq_false_iff_not] at h
            exact le_of_not_lt h
          simp [hinv, hq, JsNum.leZero, hq0, AddStockOutcome.isAdded]
  · intro h1 h2
    simp [handleAddStock, h1, h2]

/-- Witness for C5: submitting the form with an item selected but empty
quantity and bottle fields yields the selection error and leaves the store
unchanged. -/
theorem addStock_validation_check :
    (resolvedQuantity
      ⟨some 1, none, none, BottleSizeSel.preset 750, none, none⟩).isPosFinite
      = false ∧
    (handleAddStock stockState
      ⟨some 1, none, none, BottleSizeSel.preset 750, none, none⟩).1
      = AddStockOutcome.selectError ∧
    (handleAddStock stockState
      ⟨some 1, none, none, BottleSizeSel.preset 750, none, none⟩).2
      = stockState := by
  refine ⟨by with_unfolding_all decide, ?_, ?_⟩
  · exact ((addStock_validation stockState
      ⟨some 1, none, none, BottleSizeSel.preset 750, none, none⟩).2 rfl rfl).1
  · exact ((addStock_validation stockState
      ⟨some 1, none, none, BottleSizeSel.preset 750, none, none⟩).2 rfl rfl).2

/-- Claim C6: bottle quick-entry resolution — with a bottle count present,
the submitted quantity is bottleCount × bottleSize (the custom size when
selected), regardless of the direct-quantity field; the direct quantity is
used only when the bottle count is empty; and bottle entry 3 × 750
produces the same inventory stocks as a direct addStock of 2250 ml. -/
theorem bottle_entry_resolution (s : StoreState) (f : AddStockForm) :
    (∀ c, f.bottleCount = some c →
      resolvedQuantity f = c.mul (effectiveBottleSize f) ∧
      ∀ q, handleAddStock s { f with stockQuantity := q } = handleAddStock s f) ∧
    (f.bottleCount = none → ∀ d, f.stockQuantity = some d →
      resolvedQuantity f = d) ∧
    (f.bottleCount = some (JsNum.num 3) → f.bottleSize = BottleSizeSel.preset 750 →
      ∀ mid invItem, f.stockMenuItemId = some mid →
        getInventoryByMenuItemId s mid = some invItem →
        ∃ s2, addStock s mid (JsNum.num 2250) InventoryUnitType.ml ""
            = Except.ok s2 ∧
          (handleAddStock s f).1
            = AddStockOutcome.added (JsNum.num 2250) (stockEntryNotes f) ∧
          (handleAddStock s f).2.inventoryItems = s2.inventoryItems) := by
  refine ⟨?_, ?_, ?_⟩
  · intro c hc
    constructor
    · simp [resolvedQuantity, hc, parseField]
    · intro q
      cases f with
      | mk a b bc bs cbs notes =>
        cases hc
        simp [handleAddStock, resolvedQuantity, stockEntryNotes, parseField,
          effectiveBottleSize]
  · intro h0 d hd
    simp [resolvedQuantity, h0, hd, parseField]
  · intro h3 hbs mid invItem hmid hinv
    have hq : resolvedQuantity f = JsNum.num 2250 := by
      simp [resolvedQuantity, h3, hbs, parseField, effectiveBottleSize, JsNum.mul]
      norm_num
    have hlz : (JsNum.num 2250).leZero = false := by
      simp [JsNum.leZero]
    refine ⟨{ s with
        stockMutations := s.stockMutations ++
          [⟨mid, 2250, InventoryUnitType.ml, ""⟩],
        inventoryItems := s.inventoryItems.map (fun it =>
          if it.menuItemId == mid
          then { it with currentStock := it.currentStock + 2250 }
          else it) }, ?_, ?_, ?_⟩
    · simp [addStock, hinv]
    · simp [handleAddStock, hmid, h3, hinv, hq, hlz, addStock]
    · simp [handleAddStock, hmid, h3, hinv, hq, hlz, addStock]

/-- Witness for C6: bottle entry with count 3 at preset size 750 on the
stocked demo store resolves to 2250 and succeeds with quantity 2250. -/
theorem bottle_entry_resolution_check :
    resolvedQuantity
      ⟨some 1, some (JsNum.num 99), some (JsNum.num 3),
        BottleSizeSel.preset 750, none, none⟩ = JsNum.num 2250 ∧
    (handleAddStock stockState
      ⟨some 1, some (JsNum.num 99), some (JsNum.num 3),
        BottleSizeSel.preset 750, none, none⟩).1
      = AddStockOutcome.added (JsNum.num 2250)
          (stockEntryNotes
            ⟨some 1, some (JsNum.num 99), some (JsNum.num 3),
              BottleSizeSel.preset 750, none, none⟩) := by
  obtain ⟨s2, hok, hout, hitems⟩ :=
    (bottle_entry_resolution stockState
      ⟨some 1, some (JsNum.num 99), some (JsNum.num 3),
        BottleSizeSel.preset 750, none, none⟩).2.2 rfl rfl 1
      ⟨3, 1, 5, some 750, InventoryUnitType.ml, some 5⟩ rfl
      (by with_unfolding_all rfl)
  exact ⟨by with_unfolding_all decide, hout⟩

/-- Claim C7: category lifecycle round-trip — registering a category
creates one InventoryCategory, seeds the default portions, and creates one
zero-stock InventoryItem per menu item of the category; immediately
unregistering it removes all of them, leaving no InventoryCategory,
no PortionOption and no InventoryItem for that category. -/
theorem category_lifecycle_roundtrip
    (s : StoreState) (f : RegisterForm) (cid : Nat) (cat : Category)
    (s3 : StoreState)
    (hsel : f.selectedCategory = some cid)
    (hcat : s.categories.find? (fun c => c.id == cid) = some cat)
    (huntracked : ∀ ic ∈ s.inventoryCategories, ic.categoryId ≠ cid)
    (hicid : ∀ ic ∈ s.inventoryCategories, ic.id < s.nextId)
    (hpo : ∀ p ∈ s.portionOptions,
      p.id < s.nextId ∧ p.inventoryCategoryId < s.nextId)
    (hit : ∀ it ∈ s.inventoryItems, it.id < s.nextId)
    (hnotrk : ∀ it ∈ s.inventoryItems, ∀ m ∈ s.menuItems,
      m.category = cat.name → it.menuItemId ≠ m.id)
    (hnodup : (s.menuItems.map (fun m => m.id)).Nodup)
    (hreg : handleAddInventoryCategory s f = some s3) :
    s3.inventoryCategories.length = s.inventoryCategories.length + 1 ∧
    s3.portionOptions.length
      = s.portionOptions.length + (defaultPortionsFor f.selectedUnit).length ∧
    s3.inventoryItems.length
      = s.inventoryItems.length
        + (s.menuItems.filter (fun m => m.category == cat.name)).length ∧
    (handleRemoveCategory s3 cid true).inventoryCategories
      = s.inventoryCategories ∧
    (handleRemoveCategory s3 cid true).portionOptions = s.portionOptions ∧
    (handleRemoveCategory s3 cid true).inventoryItems = s.inventoryItems ∧
    (∀ ic ∈ (handleRemoveCategory s3 cid true).inventoryCategories,
      ic.categoryId ≠ cid) ∧
    (∀ p ∈ (handleRemoveCategory s3 cid true).portionOptions,
      p.inventoryCategoryId ≠ s.nextId) ∧
    (∀ m ∈ s.menuItems, m.category = cat.name →
      ∀ it ∈ (handleRemoveCategory s3 cid true).inventoryItems,
        it.menuItemId ≠ m.id) := by
  have hX := register_eq s f cid cat hsel hcat huntracked
  rw [hreg] at hX
  have hs3 := Option.some.inj hX
  have hrem := unregister_after_register s f cid cat s3 hsel hcat huntracked
    hicid hpo hit hnotrk hnodup hreg
  rw [hrem]
  refine ⟨?_, ?_, ?_, rfl, rfl, rfl, ?_, ?_, ?_⟩
  · rw [hs3]
    simp
  · rw [hs3]
    simp [mkSeedPortions_length, List.enum_length]
  · rw [hs3]
    simp [mkSeedItems_length]
  · intro ic hic
    exact huntracked ic hic
  · intro p hp
    have := (hpo p hp).2
    omega
  · intro m hm hcatm it hit2
    exact hnotrk it hit2 m hm hcatm

/-- Witness for C7: registering then unregistering Drinks in the demo store
restores the empty inventory collections. -/
theorem category_lifecycle_roundtrip_check :
    demoRegistered.inventoryCategories.length = 1 ∧
    demoRegistered.portionOptions.length = 7 ∧
    demoRegistered.inventoryItems.length = 1 ∧
    (handleRemoveCategory demoRegistered 0 true).inventoryCategories = [] ∧
    (handleRemoveCategory demoRegistered 0 true).portionOptions = [] ∧
    (handleRemoveCategory demoRegistered 0 true).inventoryItems = [] := by
  have h := category_lifecycle_roundtrip demoState demoForm 0 ⟨0, "Drinks"⟩
    demoRegistered rfl rfl (by simp [demoState]) (by simp [demoState])
    (by simp [demoState]) (by simp [demoState]) (by simp [demoState])
    (by decide) demoRegistered_eq
  refine ⟨?_, ?_, ?_, h.2.2.2.1.trans rfl, h.2.2.2.2.1.trans rfl,
    h.2.2.2.2.2.1.trans rfl⟩
  · exact h.1.trans rfl
  · exact (h.2.1).trans (by with_unfolding_all decide)
  · exact (h.2.2.1).trans (by with_unfolding_all decide)

/-- Claim C9 (counterexample): the ml ladder's multiplier per unit volume
is NOT strictly decreasing in size — the 30ml tier (0.5/30) and the 60ml
tier (1/60) have exactly the same cost-per-ml factor, so "decreases as
size increases", read strictly, fails at that pair. -/
theorem default_templates_counterexample :
    ¬ List.Pairwise (fun a b => a.size < b.size →
        perUnitMultiplier b < perUnitMultiplier a) mlPortionTemplate := by
  with_unfolding_all decide

/-- Claim C9 (amended): the ml template is a 7-entry ladder from 30ml
(multiplier 0.5) through 1000ml with sizes strictly increasing and
multiplier per unit volume non-increasing (ties occur among the
30/60/90 tiers); the pcs template is the 2-entry ladder (single piece,
pack of 20 at multiplier 18); unit types without an explicit template
(grams, bottle, pack) use the pcs template; and each seeded PortionOption
gets sortOrder equal to its position in the template. -/
theorem default_templates :
    mlPortionTemplate.length = 7 ∧
    (mlPortionTemplate.map (fun t => (t.size, t.multiplier)))
      = [(30, 0.5), (60, 1), (90, 1.5), (180, 2.8), (375, 5.5), (750, 10),
         (1000, 13.3)] ∧
    List.Pairwise (fun a b =>
      a.size < b.size ∧ perUnitMultiplier b ≤ perUnitMultiplier a)
      mlPortionTemplate ∧
    pcsPortionTemplate.length = 2 ∧
    (pcsPortionTemplate.map (fun t => (t.size, t.multiplier)))
      = [(1, 1), (20, 18)] ∧
    defaultPortionsFor InventoryUnitType.grams = pcsPortionTemplate ∧
    defaultPortionsFor InventoryUnitType.bottle = pcsPortionTemplate ∧
    defaultPortionsFor InventoryUnitType.pack = pcsPortionTemplate ∧
    ∀ (u : InventoryUnitType) (n icid : Nat),
      (mkSeedPortions n icid ((defaultPortionsFor u).enum)).map
        (fun p => p.sortOrder) = List.range (defaultPortionsFor u).length := by
  refine ⟨rfl, by with_unfolding_all decide, by with_unfolding_all decide,
    rfl, by with_unfolding_all decide, rfl, rfl, rfl, ?_⟩
  intro u n icid
  rw [mkSeedPortions_sortOrders]
  exact List.enum_map_fst _

/-- Witness for C9's seeding clause at a concrete instance: seeding the ml
template at counter 3 for inventory category 2 assigns sortOrders 0..6. -/
theorem default_templates_check :
    (mkSeedPortions 3 2 ((defaultPortionsFor InventoryUnitType.ml).enum)).map
      (fun p => p.sortOrder)
      = List.range (defaultPortionsFor InventoryUnitType.ml).length :=
  default_templates.2.2.2.2.2.2.2.2 InventoryUnitType.ml 3 2
